import Mathlib

/-!
Shallow embedding of the feed repository layer in `src/storage/feed.go`
(package `storage` of miniflux).

The relational store is modelled as explicit lists of rows (`Db`); each public
operation of the Go file becomes a pure Lean function over `Db`.  SQL queries
are interpreted semantically: `WHERE` becomes `List.filter`, `ORDER BY` becomes
`List.mergeSort` with the corresponding comparison, `GROUP BY` becomes a count
over deduplicated keys, `LEFT JOIN` becomes an optional `List.find?` lookup.
Infrastructure failure of a database round trip (connection, query execution,
row scanning) is modelled by explicit boolean failure flags passed to each
operation, one per round trip the Go code performs.
-/

/-- Errors returned by the storage layer: wrapped infrastructure failures
(`fmt.Errorf` around a driver error) and the distinguished
`store: no feed has been removed` error of `RemoveFeed`. -/
inductive StoreErr where
  | infra (msg : String) : StoreErr
  | nothingRemoved : StoreErr
  deriving DecidableEq, Repr

/-- Row of the `feeds` table (columns used by `src/storage/feed.go`). -/
structure FeedRow where
  id : Int
  feedURL : String
  siteURL : String
  title : String
  etagHeader : String
  lastModifiedHeader : String
  userID : Int
  checkedAt : Int
  parsingErrorCount : Int
  parsingErrorMsg : String
  scraperRules : String
  rewriteRules : String
  crawler : Bool
  userAgent : String
  username : String
  password : String
  ignoreHTTPCache : Bool
  fetchViaProxy : Bool
  disabled : Bool
  categoryID : Int
  nextCheckAt : Int
  deriving DecidableEq, Repr

/-- Row of the `entries` table (columns consumed by this layer: the counter
queries read `feed_id`, `user_id`, `status`, `published_at`; the deduplication
predicate of feed creation identifies an entry by `(user_id, feed_id, hash)`). -/
structure EntryRow where
  feedID : Int
  userID : Int
  status : String
  publishedAt : Int
  hash : String
  deriving DecidableEq, Repr

/-- Row of the `categories` table (as joined by the feed queries). -/
structure CategoryRow where
  id : Int
  title : String
  userID : Int
  deriving DecidableEq, Repr

/-- Row of the `feed_icons` table (as joined by the feed queries). -/
structure FeedIconRow where
  feedID : Int
  iconID : Int
  deriving DecidableEq, Repr

/-- Row of the `users` table (as joined by the feed queries for the timezone). -/
structure UserRow where
  id : Int
  timezone : String
  deriving DecidableEq, Repr

/-- The relational store visible to `src/storage/feed.go`. -/
structure Db where
  feeds : List FeedRow
  categories : List CategoryRow
  feedIcons : List FeedIconRow
  users : List UserRow
  entries : List EntryRow
  deriving DecidableEq, Repr

/-- In-memory `model.Category` value as populated by this layer. -/
structure Category where
  id : Int
  title : String
  userID : Int
  deriving DecidableEq, Repr

/-- In-memory `model.FeedIcon` reference as populated by this layer. -/
structure FeedIcon where
  feedID : Int
  iconID : Int
  deriving DecidableEq, Repr

/-- In-memory `model.Feed` as populated by the fetch operations of this layer:
the scanned columns plus the derived, non-persisted `readCount` and
`unreadCount` (Go zero value 0 unless counters were requested and found). -/
structure Feed where
  id : Int
  feedURL : String
  siteURL : String
  title : String
  etagHeader : String
  lastModifiedHeader : String
  userID : Int
  checkedAt : Int
  nextCheckAt : Int
  parsingErrorCount : Int
  parsingErrorMsg : String
  scraperRules : String
  rewriteRules : String
  crawler : Bool
  userAgent : String
  username : String
  password : String
  ignoreHTTPCache : Bool
  fetchViaProxy : Bool
  disabled : Bool
  category : Category
  icon : Option FeedIcon
  readCount : Nat
  unreadCount : Nat
  deriving DecidableEq, Repr

/-- Row produced by the counter queries: `SELECT feed_id, status, count(*)
FROM entries ... GROUP BY feed_id, status`. -/
structure CounterRow where
  feedID : Int
  status : String
  count : Nat
  deriving DecidableEq, Repr

/-- Go map with integer keys modelled as an association list;
assignment overwrites the previous binding of the key. -/
def mapInsert (m : List (Int × Nat)) (k : Int) (v : Nat) : List (Int × Nat) :=
  (k, v) :: m.filter (fun p => p.1 != k)

/-- Lookup in the association-list model of a Go map (`m[k]` with `found`). -/
def mapLookup (m : List (Int × Nat)) (k : Int) : Option Nat :=
  (m.find? (fun p => p.1 == k)).map (fun p => p.2)

/-- Grouping key `(feed_id, status)` of the counter queries. -/
def entryKey (e : EntryRow) : Int × String :=
  (e.feedID, e.status)

/-- Number of rows of `es` falling in the group `k` (the `count(*)` of a
`GROUP BY feed_id, status` group). -/
def groupCount (es : List EntryRow) (k : Int × String) : Nat :=
  (es.filter (fun e => entryKey e == k)).length

/-- Result rows of a `GROUP BY feed_id, status` aggregate over the filtered
entry list `es`: one row per distinct key, carrying the group size. -/
def counterRowsOf (es : List EntryRow) : List CounterRow :=
  ((es.map entryKey).dedup).map (fun k => { feedID := k.1, status := k.2, count := groupCount es k })

/-- Entries selected by the counter query of `FeedsWithCounters`:
`WHERE user_id=$1 AND status IN ('read', 'unread')`. -/
def userCounterEntries (db : Db) (uid : Int) : List EntryRow :=
  db.entries.filter (fun e => e.userID == uid && (e.status == "read" || e.status == "unread"))

/-- Entries selected by the counter query of `FeedsByCategoryWithCounters`:
`LEFT JOIN feeds f ON f.id=e.feed_id WHERE e.user_id=$1 AND f.category_id=$2
AND e.status IN ('read', 'unread')`; a missing joined feed row yields SQL NULL
for `f.category_id`, which fails the equality predicate. -/
def categoryCounterEntries (db : Db) (uid cid : Int) : List EntryRow :=
  db.entries.filter (fun e =>
    e.userID == uid &&
    (match db.feeds.find? (fun f => f.id == e.feedID) with
     | some f => f.categoryID == cid
     | none => false) &&
    (e.status == "read" || e.status == "unread"))

/-- Loop body of `fetchFeedCounter`: a row with status `read` is stored in the
read map, one with status `unread` in the unread map, anything else ignored. -/
def counterStep (ms : List (Int × Nat) × List (Int × Nat)) (r : CounterRow) :
    List (Int × Nat) × List (Int × Nat) :=
  if r.status == "read" then (mapInsert ms.1 r.feedID r.count, ms.2)
  else if r.status == "unread" then (ms.1, mapInsert ms.2 r.feedID r.count)
  else ms

/-- `fetchFeedCounter` (src/storage/feed.go:226): pivots the grouped counter
rows into a read-count map and an unread-count map keyed by feed id. -/
def fetchFeedCounter (rows : List CounterRow) : List (Int × Nat) × List (Int × Nat) :=
  rows.foldl counterStep ([], [])

/-- Comparison realising `ORDER BY f.parsing_error_count DESC, lower(f.title) ASC`. -/
def feedRowLE (a b : FeedRow) : Bool :=
  decide (b.parsingErrorCount < a.parsingErrorCount ∨
    (a.parsingErrorCount = b.parsingErrorCount ∧ a.title.toLower ≤ b.title.toLower))

/-- Result rows of `feedListQuery` (src/storage/feed.go:16): the user's feeds,
ordered by parsing-error count descending then case-insensitive title ascending. -/
def feedListQuery (db : Db) (uid : Int) : List FeedRow :=
  (db.feeds.filter (fun f => f.userID == uid)).mergeSort feedRowLE

/-- Result rows of the feed query of `FeedsByCategoryWithCounters`
(src/storage/feed.go:169): same as `feedListQuery` restricted to one category. -/
def feedsByCategoryQuery (db : Db) (uid cid : Int) : List FeedRow :=
  (db.feeds.filter (fun f => f.userID == uid && f.categoryID == cid)).mergeSort feedRowLE

/-- Timezone of the joined `users` row for a feed row (`u.timezone`); the join
is by `u.id=f.user_id`. -/
def rowTimezone (db : Db) (r : FeedRow) : String :=
  ((db.users.find? (fun u => u.id == r.userID)).map (fun u => u.timezone)).getD ""

/-- Title of the joined `categories` row (`c.title`), joined by `c.id=f.category_id`. -/
def rowCategoryTitle (db : Db) (r : FeedRow) : String :=
  ((db.categories.find? (fun c => c.id == r.categoryID)).map (fun c => c.title)).getD ""

/-- Nullable `fi.icon_id` of the joined `feed_icons` row (`fi.feed_id=f.id`). -/
def rowIconID (db : Db) (r : FeedRow) : Option Int :=
  (db.feedIcons.find? (fun fi => fi.feedID == r.id)).map (fun fi => fi.iconID)

/-- Loop body of `fetchFeeds` (src/storage/feed.go:274): scans one row into a
`model.Feed`, wraps a non-null icon id, merges the counters when requested
(Go map lookup miss keeps the zero value 0), converts `checked_at` with the
row's timezone and copies the user id onto the category.  `conv` stands for
`timezone.Convert`, an external collaborator of this file. -/
def mkFeed (conv : String → Int → Int) (db : Db)
    (ms : List (Int × Nat) × List (Int × Nat)) (withCounters : Bool) (r : FeedRow) : Feed :=
  { id := r.id
    feedURL := r.feedURL
    siteURL := r.siteURL
    title := r.title
    etagHeader := r.etagHeader
    lastModifiedHeader := r.lastModifiedHeader
    userID := r.userID
    checkedAt := conv (rowTimezone db r) r.checkedAt
    nextCheckAt := 0
    parsingErrorCount := r.parsingErrorCount
    parsingErrorMsg := r.parsingErrorMsg
    scraperRules := r.scraperRules
    rewriteRules := r.rewriteRules
    crawler := r.crawler
    userAgent := r.userAgent
    username := r.username
    password := r.password
    ignoreHTTPCache := r.ignoreHTTPCache
    fetchViaProxy := r.fetchViaProxy
    disabled := r.disabled
    category := { id := r.categoryID, title := rowCategoryTitle db r, userID := r.userID }
    icon := (rowIconID db r).map (fun iid => { feedID := r.id, iconID := iid })
    readCount := if withCounters then (mapLookup ms.1 r.id).getD 0 else 0
    unreadCount := if withCounters then (mapLookup ms.2 r.id).getD 0 else 0 }

/-- `fetchFeeds` (src/storage/feed.go:253): when a counter query is supplied
(`counterQ = some rows`, Go `counterQuery != ""`), its failure aborts first;
then a feed-query failure aborts; otherwise each row is scanned and merged.
`counterFail` and `feedFail` model infrastructure failure of the two round
trips. -/
def fetchFeeds (conv : String → Int → Int) (db : Db) (counterQ : Option (List CounterRow))
    (feedRows : List FeedRow) (counterFail feedFail : Bool) : Except StoreErr (List Feed) :=
  if counterQ.isSome && counterFail then .error (.infra "store: unable to fetch feed counts")
  else if feedFail then .error (.infra "store: unable to fetch feeds")
  else .ok (feedRows.map (mkFeed conv db (fetchFeedCounter (counterQ.getD [])) counterQ.isSome))

/-- `Feeds` (src/storage/feed.go:146): plain listing, no counter query. -/
def Feeds (conv : String → Int → Int) (feedFail : Bool) (db : Db) (uid : Int) :
    Except StoreErr (List Feed) :=
  fetchFeeds conv db none (feedListQuery db uid) false feedFail

/-- `FeedsWithCounters` (src/storage/feed.go:151): listing with the per-user
counter query. -/
def FeedsWithCounters (conv : String → Int → Int) (counterFail feedFail : Bool)
    (db : Db) (uid : Int) : Except StoreErr (List Feed) :=
  fetchFeeds conv db (some (counterRowsOf (userCounterEntries db uid)))
    (feedListQuery db uid) counterFail feedFail

/-- `FeedsByCategoryWithCounters` (src/storage/feed.go:168): listing restricted
to one category, with the category counter query. -/
def FeedsByCategoryWithCounters (conv : String → Int → Int) (counterFail feedFail : Bool)
    (db : Db) (uid cid : Int) : Except StoreErr (List Feed) :=
  fetchFeeds conv db (some (counterRowsOf (categoryCounterEntries db uid cid)))
    (feedsByCategoryQuery db uid cid) counterFail feedFail

/-- `FeedExists` (src/storage/feed.go:56): `SELECT true ... WHERE user_id=$1 AND
id=$2`; the `Scan` error is discarded, so both an absent row and an
infrastructure failure leave the preset `false`. -/
def FeedExists (fail : Bool) (db : Db) (uid fid : Int) : Bool :=
  if fail then false
  else db.feeds.any (fun f => f.userID == uid && f.id == fid)

/-- `FeedURLExists` (src/storage/feed.go:64): same lenient pattern keyed by
`(user_id, feed_url)`. -/
def FeedURLExists (fail : Bool) (db : Db) (uid : Int) (url : String) : Bool :=
  if fail then false
  else db.feeds.any (fun f => f.userID == uid && f.feedURL == url)

/-- `AnotherFeedURLExists` (src/storage/feed.go:72): lenient duplicate check
excluding the feed being edited (`id <> $1`). -/
def AnotherFeedURLExists (fail : Bool) (db : Db) (uid fid : Int) (url : String) : Bool :=
  if fail then false
  else db.feeds.any (fun f => f.id != fid && f.userID == uid && f.feedURL == url)

/-- Aggregate map returned by `CountAllFeeds` (Go `map[string]int64` with the
keys `enabled`, `disabled`, `total`). -/
structure FeedCounts where
  enabled : Nat
  disabled : Nat
  total : Nat
  deriving DecidableEq, Repr

/-- Result rows of `SELECT disabled, count(*) FROM feeds GROUP BY disabled`:
one row per disabled value present in the table. -/
def countAllRows (db : Db) : List (Bool × Nat) :=
  ((db.feeds.map (fun f => f.disabled)).dedup).map
    (fun b => (b, (db.feeds.filter (fun f => f.disabled == b)).length))

/-- Loop body of `CountAllFeeds`: a scanned row overwrites the preset zero of
its group. -/
def countAllStep (acc : Nat × Nat) (r : Bool × Nat) : Nat × Nat :=
  if r.1 then (acc.1, r.2) else (r.2, acc.2)

/-- `CountAllFeeds` (src/storage/feed.go:80): on query failure the function
returns `nil` (here `none`); otherwise both groups are preset to zero, the
grouped rows overwrite them, and `total` is the sum `disabled + enabled`. -/
def CountAllFeeds (fail : Bool) (db : Db) : Option FeedCounts :=
  if fail then none
  else
    let acc := (countAllRows db).foldl countAllStep (0, 0)
    some { enabled := acc.1, disabled := acc.2, total := acc.2 + acc.1 }

/-- `CountFeeds` (src/storage/feed.go:111): `SELECT count(*) ... WHERE
user_id=$1`; a scan error yields the default 0 instead of an error. -/
def CountFeeds (fail : Bool) (db : Db) (uid : Int) : Nat :=
  if fail then 0
  else (db.feeds.filter (fun f => f.userID == uid)).length

/-- Fixed parsing-error threshold `maxParsingError` used by the error counts
(declared outside this file; the spec calls it a fixed constant). -/
def maxParsingError : Int := 3

/-- `CountUserFeedsWithErrors` (src/storage/feed.go:122): count of the user's
feeds at or above the parsing-error threshold; a scan error yields 0. -/
def CountUserFeedsWithErrors (fail : Bool) (db : Db) (uid : Int) : Nat :=
  if fail then 0
  else (db.feeds.filter (fun f => f.userID == uid && maxParsingError ≤ f.parsingErrorCount)).length

/-- `CountAllFeedsWithErrors` (src/storage/feed.go:134): global variant of the
error count; a scan error yields 0. -/
def CountAllFeedsWithErrors (fail : Bool) (db : Db) : Nat :=
  if fail then 0
  else (db.feeds.filter (fun f => maxParsingError ≤ f.parsingErrorCount)).length

/-- Seconds of the SQL `interval '1 week'`. -/
def oneWeek : Int := 7 * 24 * 60 * 60

/-- SQL `x BETWEEN lo AND hi`: inclusive at both ends. -/
def sqlBetween (x lo hi : Int) : Bool :=
  decide (lo ≤ x) && decide (x ≤ hi)

/-- `WeeklyFeedEntryCount` (src/storage/feed.go:333): counts the user's entries
of the feed whose `published_at` lies `BETWEEN now() - interval '1 week' AND
now()`; a query failure is wrapped and propagated, and `count(*)` over no
matching rows is simply 0. -/
def WeeklyFeedEntryCount (fail : Bool) (db : Db) (now uid fid : Int) : Except StoreErr Nat :=
  if fail then .error (.infra "store: unable to fetch weekly count for feed")
  else .ok ((db.entries.filter (fun e =>
    e.userID == uid && e.feedID == fid && sqlBetween e.publishedAt (now - oneWeek) now)).length)

/-- Feed built by the scan of `FeedByID` (src/storage/feed.go:397): identical
to the listing scan except that the category's user id is preset from the
requested `userID` rather than copied from the row afterwards, and no counters
are merged. -/
def mkFeedByID (conv : String → Int → Int) (db : Db) (uid : Int) (r : FeedRow) : Feed :=
  { mkFeed conv db ([], []) false r with
      category := { id := r.categoryID, title := rowCategoryTitle db r, userID := uid } }

/-- `FeedByID` (src/storage/feed.go:359): `QueryRow` over `WHERE f.user_id=$1
AND f.id=$2`; `sql.ErrNoRows` becomes the non-error absent result
`(nil, nil)`, any other failure is wrapped and propagated. -/
def FeedByID (conv : String → Int → Int) (fail : Bool) (db : Db) (uid fid : Int) :
    Except StoreErr (Option Feed) :=
  if fail then .error (.infra "store: unable to fetch feed")
  else
    match db.feeds.find? (fun f => f.userID == uid && f.id == fid) with
    | none => .ok none
    | some r => .ok (some (mkFeedByID conv db uid r))

/-- Per-iteration infrastructure-failure flags for the per-entry transaction of
`CreateFeed`: failure of `db.Begin`, of the existence check's query, of the
entry insert, and of `tx.Commit`. -/
structure TxOracle where
  beginFails : Bool := false
  checkFails : Bool := false
  insertFails : Bool := false
  commitFails : Bool := false
  deriving DecidableEq, Repr

/-- Identity used by the entry deduplication predicate: an entry is a duplicate
of another iff they agree on `(user_id, feed_id, hash)`. -/
def sameIdentity (a b : EntryRow) : Bool :=
  a.userID == b.userID && a.feedID == b.feedID && a.hash == b.hash

/-- Modelled from the spec: `entryExists` lives outside this source slice (only
its caller `CreateFeed` is in src/storage/feed.go).  Per §3 and §4.1 it is the
boolean per-candidate existence predicate of the deduplication helper, run
inside the entry's transaction; an infrastructure failure of its query leaves
the preset `false` and poisons the transaction, so that per §4.1 the failure
surfaces as an aborted creation. -/
def entryExistsTx (poisoned : Bool) (tbl : List EntryRow) (e : EntryRow) : Bool :=
  if poisoned then false
  else tbl.any (fun x => sameIdentity x e)

/-- Errors of the per-entry transaction loop of `CreateFeed`. -/
def beginErr : StoreErr := .infra "store: unable to start transaction"

/-- Error returned when the conditional entry insert fails (`createEntry`). -/
def createEntryErr : StoreErr := .infra "store: unable to create entry"

/-- Error returned when `tx.Commit` fails. -/
def commitErr : StoreErr := .infra "store: unable to commit transaction"

/-- Entry as prepared by the loop head of `CreateFeed`
(src/storage/feed.go:486): the feed id and user id of the candidate entry are
overwritten with the generated feed id and the feed's owning user. -/
def prepareEntry (fid uid : Int) (e : EntryRow) : EntryRow :=
  { e with feedID := fid, userID := uid }

/-- Per-entry transaction loop of `CreateFeed` (src/storage/feed.go:485):
for each candidate entry, overwrite its feed/user ids, begin a transaction
(failure aborts), check existence (modelled from the spec: `entryExists` is
external; an infrastructure failure there poisons the transaction so the
subsequent insert fails and is rolled back), insert only if absent (failure
rolls back and aborts; `createEntry` is likewise external and modelled from the
spec as a plain insert), and commit (failure aborts, the transaction's work is
discarded).  Returns the result together with the final `entries` table. -/
def entryTxLoop (fid uid : Int) :
    List EntryRow → List TxOracle → List EntryRow → Except StoreErr Unit × List EntryRow
  | [], _, tbl => (.ok (), tbl)
  | e :: es, os, tbl =>
    let o := os.headD {}
    let pe := prepareEntry fid uid e
    if o.beginFails then (.error beginErr, tbl)
    else if entryExistsTx o.checkFails tbl pe then
      if o.commitFails then (.error commitErr, tbl)
      else entryTxLoop fid uid es os.tail tbl
    else if o.checkFails || o.insertFails then (.error createEntryErr, tbl)
    else if o.commitFails then (.error commitErr, tbl)
    else entryTxLoop fid uid es os.tail (tbl ++ [pe])

/-- Failure flags and generated identifier for one `CreateFeed` call:
`insertFeedFails` models failure of the feed `INSERT ... RETURNING id`,
`genID` is the identifier the store generates for the new row, and `txs`
holds the per-entry transaction oracles. -/
structure CreateOracle where
  insertFeedFails : Bool := false
  genID : Int := 1
  txs : List TxOracle := []
  deriving Repr

/-- Feed row inserted by `CreateFeed`: the fifteen columns of the `INSERT`
statement taken from the payload, the generated id, and server-side defaults
for every column absent from the statement. -/
def feedRowOfInsert (genID : Int) (f : Feed) : FeedRow :=
  { id := genID
    feedURL := f.feedURL
    siteURL := f.siteURL
    title := f.title
    categoryID := f.category.id
    userID := f.userID
    etagHeader := f.etagHeader
    lastModifiedHeader := f.lastModifiedHeader
    crawler := f.crawler
    userAgent := f.userAgent
    username := f.username
    password := f.password
    disabled := f.disabled
    scraperRules := f.scraperRules
    rewriteRules := f.rewriteRules
    fetchViaProxy := f.fetchViaProxy
    checkedAt := 0
    nextCheckAt := 0
    parsingErrorCount := 0
    parsingErrorMsg := ""
    ignoreHTTPCache := false }

/-- `CreateFeed` (src/storage/feed.go:439): inserts the feed row (failure is
wrapped and propagated), captures the generated id, then runs the per-entry
transaction loop over the payload's pending entries.  Returns the result and
the updated store. -/
def CreateFeed (o : CreateOracle) (db : Db) (feed : Feed) (payload : List EntryRow) :
    Except StoreErr Unit × Db :=
  if o.insertFeedFails then (.error (.infra "store: unable to create feed"), db)
  else
    let db1 := { db with feeds := db.feeds ++ [feedRowOfInsert o.genID feed] }
    let r := entryTxLoop o.genID feed.userID payload o.txs db1.entries
    (r.1, { db1 with entries := r.2 })

/-- `UpdateFeed` (src/storage/feed.go:510): full-column `UPDATE` scoped by
`id=$20 AND user_id=$21`; an execution failure is wrapped and propagated. -/
def UpdateFeed (fail : Bool) (db : Db) (f : Feed) : Except StoreErr Unit × Db :=
  if fail then (.error (.infra "store: unable to update feed"), db)
  else
    (.ok (), { db with feeds := db.feeds.map (fun r =>
      if r.id == f.id && r.userID == f.userID then
        { r with feedURL := f.feedURL, siteURL := f.siteURL, title := f.title,
                 categoryID := f.category.id, etagHeader := f.etagHeader,
                 lastModifiedHeader := f.lastModifiedHeader, checkedAt := f.checkedAt,
                 parsingErrorMsg := f.parsingErrorMsg, parsingErrorCount := f.parsingErrorCount,
                 scraperRules := f.scraperRules, rewriteRules := f.rewriteRules,
                 crawler := f.crawler, userAgent := f.userAgent, username := f.username,
                 password := f.password, disabled := f.disabled, nextCheckAt := f.nextCheckAt,
                 ignoreHTTPCache := f.ignoreHTTPCache, fetchViaProxy := f.fetchViaProxy }
      else r) })

/-- Row-level effect of the `UPDATE` statement of `UpdateFeedError`: the four
columns of its `SET` clause are overwritten on a row matching `id=$5 AND
user_id=$6`, any other row is untouched. -/
def applyFeedErrorUpdate (f : Feed) (r : FeedRow) : FeedRow :=
  if r.id == f.id && r.userID == f.userID then
    { r with parsingErrorMsg := f.parsingErrorMsg,
             parsingErrorCount := f.parsingErrorCount,
             checkedAt := f.checkedAt,
             nextCheckAt := f.nextCheckAt }
  else r

/-- `UpdateFeedError` (src/storage/feed.go:569): narrow `UPDATE` of
`parsing_error_msg`, `parsing_error_count`, `checked_at`, `next_check_at`
scoped by `id=$5 AND user_id=$6`; an execution failure is wrapped and
propagated. -/
def UpdateFeedError (fail : Bool) (db : Db) (f : Feed) : Except StoreErr Unit × Db :=
  if fail then (.error (.infra "store: unable to update feed error"), db)
  else
    (.ok (), { db with feeds := db.feeds.map (applyFeedErrorUpdate f) })

/-- `RemoveFeed` (src/storage/feed.go:598): `DELETE FROM feeds WHERE id = $1
AND user_id = $2`; an execution failure or a failure of `RowsAffected` is
wrapped and propagated, zero rows affected yields the distinguished
`store: no feed has been removed` error, otherwise success. -/
def RemoveFeed (execFail rowsFail : Bool) (db : Db) (uid fid : Int) :
    Except StoreErr Unit × Db :=
  if execFail then (.error (.infra "store: unable to remove feed"), db)
  else
    let affected := (db.feeds.filter (fun f => f.id == fid && f.userID == uid)).length
    let db1 := { db with feeds := db.feeds.filter (fun f => !(f.id == fid && f.userID == uid)) }
    if rowsFail then (.error (.infra "store: unable to remove feed"), db1)
    else if affected == 0 then (.error .nothingRemoved, db1)
    else (.ok (), db1)

/-- `ResetFeedErrors` (src/storage/feed.go:618): unscoped `UPDATE` clearing the
parsing-error state of every feed; the driver error is returned unchanged. -/
def ResetFeedErrors (fail : Bool) (db : Db) : Except StoreErr Unit × Db :=
  if fail then (.error (.infra "driver failure"), db)
  else
    (.ok (), { db with feeds := db.feeds.map (fun r =>
      { r with parsingErrorCount := 0, parsingErrorMsg := "" }) })

/-- Specification-side count: number of entries of feed `fid` owned by user
`uid` carrying exactly the status `st`. -/
def statusEntryCount (db : Db) (uid fid : Int) (st : String) : Nat :=
  (db.entries.filter (fun e => e.userID == uid && e.feedID == fid && e.status == st)).length

/-- Specification-side ordering relation of the listing contract: more parsing
errors first, ties broken by case-insensitive title ascending. -/
def specFeedOrder (a b : Feed) : Prop :=
  b.parsingErrorCount < a.parsingErrorCount ∨
    (a.parsingErrorCount = b.parsingErrorCount ∧ a.title.toLower ≤ b.title.toLower)

/-- Specification-side trailing-week window: the closed interval from
`now` minus seven days to `now`. -/
def inTrailingWeek (now p : Int) : Prop :=
  now - 7 * 24 * 60 * 60 ≤ p ∧ p ≤ now

instance (now p : Int) : Decidable (inTrailingWeek now p) :=
  inferInstanceAs (Decidable (And _ _))

/-- Effect of one committed deduplicating entry transaction on the `entries`
table: insert the entry unless one with the same identity is present. -/
def dedupInsert (tbl : List EntryRow) (e : EntryRow) : List EntryRow :=
  if tbl.any (fun x => sameIdentity x e) then tbl else tbl ++ [e]

/-- Effect of a failure-free run of the per-entry transaction loop. -/
def dedupRun (tbl : List EntryRow) (es : List EntryRow) : List EntryRow :=
  es.foldl dedupInsert tbl

/-- The prepared candidate entries of a `CreateFeed` call: every payload entry
with its feed and user identifiers overwritten. -/
def prepSeq (fid uid : Int) (es : List EntryRow) : List EntryRow :=
  es.map (prepareEntry fid uid)

/-- Whether one iteration of the per-entry transaction loop fails, given its
failure flags, the `entries` table it starts from, and the prepared entry:
a begin failure, an existence-check infrastructure failure, a commit failure,
or an insert failure when the entry is absent (when the entry is present the
insert is skipped, so its failure flag is irrelevant). -/
def stepFails (o : TxOracle) (tbl : List EntryRow) (e : EntryRow) : Bool :=
  o.beginFails || o.checkFails || o.commitFails ||
    (o.insertFails && !(tbl.any (fun x => sameIdentity x e)))

/-- Sample feed row used by the concrete witnesses. -/
def sampleFeedRow (i u : Int) (t : String) (pec : Int) : FeedRow :=
  { id := i, feedURL := "http://example.org/feed", siteURL := "http://example.org",
    title := t, etagHeader := "", lastModifiedHeader := "", userID := u, checkedAt := 5,
    parsingErrorCount := pec, parsingErrorMsg := "", scraperRules := "", rewriteRules := "",
    crawler := false, userAgent := "", username := "", password := "", ignoreHTTPCache := false,
    fetchViaProxy := false, disabled := false, categoryID := 7, nextCheckAt := 0 }

/-- Sample entry row used by the concrete witnesses. -/
def sampleEntry (fid uid : Int) (st : String) (p : Int) (h : String) : EntryRow :=
  { feedID := fid, userID := uid, status := st, publishedAt := p, hash := h }

/-- Concrete store used by the witnesses: user 1 owns feeds 10, 11, 12 (12 has
parsing errors), user 2 owns feed 13; feed 10 has two read entries, one unread
entry, one entry of another status, and one read entry of another user. -/
def sampleDb : Db :=
  { feeds := [sampleFeedRow 10 1 "Beta" 0, sampleFeedRow 11 1 "alpha" 0,
              sampleFeedRow 12 1 "Gamma" 2, sampleFeedRow 13 2 "Other" 0],
    categories := [{ id := 7, title := "cat", userID := 1 }],
    feedIcons := [{ feedID := 10, iconID := 99 }],
    users := [{ id := 1, timezone := "UTC" }],
    entries := [sampleEntry 10 1 "read" 0 "a", sampleEntry 10 1 "read" 0 "b",
                sampleEntry 10 1 "unread" 0 "c", sampleEntry 10 1 "removed" 0 "d",
                sampleEntry 10 2 "read" 0 "e"] }

/-- Sample in-memory feed payload used by the creation witnesses. -/
def sampleFeedPayload : Feed :=
  { id := 0, feedURL := "http://example.org/feed", siteURL := "http://example.org",
    title := "New", etagHeader := "", lastModifiedHeader := "", userID := 1, checkedAt := 0,
    nextCheckAt := 0, parsingErrorCount := 0, parsingErrorMsg := "", scraperRules := "",
    rewriteRules := "", crawler := false, userAgent := "", username := "", password := "",
    ignoreHTTPCache := false, fetchViaProxy := false, disabled := false,
    category := { id := 7, title := "cat", userID := 1 }, icon := none,
    readCount := 0, unreadCount := 0 }

/-- Identity timezone conversion used by the concrete witnesses. -/
def sampleConv : String → Int → Int := fun _ t => t

/-- Concrete result list of `Feeds` over the sample store, for the witnesses. -/
def sampleListed : List Feed :=
  (feedListQuery sampleDb 1).map (mkFeed sampleConv sampleDb (fetchFeedCounter []) false)

/-- Concrete result list of `FeedsWithCounters` over the sample store. -/
def sampleCountersListed : List Feed :=
  (feedListQuery sampleDb 1).map
    (mkFeed sampleConv sampleDb
      (fetchFeedCounter (counterRowsOf (userCounterEntries sampleDb 1))) true)


/-- Sample store with no entries at all, for the weekly-count witness. -/
def emptyEntriesDb : Db :=
  { sampleDb with entries := [] }

/-- Entirely empty store, for the aggregate-count witness. -/
def emptyDb : Db :=
  { feeds := [], categories := [], feedIcons := [], users := [], entries := [] }

/-- Sample error-state payload: targets feed 12 of user 1. -/
def sampleErrFeed : Feed :=
  { sampleFeedPayload with id := 12, parsingErrorCount := 5, parsingErrorMsg := "boom",
                           checkedAt := 50, nextCheckAt := 60 }


/-- Default entry value used for out-of-range list indexing in statements. -/
def emptyEntry : EntryRow :=
  { feedID := 0, userID := 0, status := "", publishedAt := 0, hash := "" }

/-- Payload of three candidate entries for the creation witnesses; their feed
and user identifiers carry junk values that `CreateFeed` must overwrite. -/
def sampleTxEntries : List EntryRow :=
  [sampleEntry 0 0 "unread" 5 "h1", sampleEntry 99 42 "unread" 6 "h2",
   sampleEntry 0 0 "unread" 7 "h3"]

/-- Per-entry oracles whose second transaction fails at commit. -/
def sampleFailTxs : List TxOracle :=
  [{}, { commitFails := true }, {}]

/-- Creation oracle for the witnesses: feed insert succeeds, id 77 generated,
second entry transaction fails at commit. -/
def sampleCreateOracle : CreateOracle :=
  { insertFeedFails := false, genID := 77, txs := sampleFailTxs }


theorem mapLookup_insert_self (m : List (Int × Nat)) (k : Int) (v : Nat) :
    mapLookup (mapInsert m k v) k = some v := by
  simp [mapLookup, mapInsert, List.find?_cons]

theorem find_filter_ne (m : List (Int × Nat)) (k k1 : Int) (h : k1 ≠ k) :
    (m.filter (fun p => p.1 != k)).find? (fun p => p.1 == k1) =
      m.find? (fun p => p.1 == k1) := by
  induction m with
  | nil => rfl
  | cons a as ih =>
    by_cases hk : a.1 = k
    · have h1 : ¬ ((a.1 != k) = true) := by simp [hk]
      have h2 : ¬ ((a.1 == k1) = true) := by simp [hk]; exact Ne.symm h
      rw [List.filter_cons, if_neg h1, ih,
        List.find?_cons_of_neg (p := fun q => q.1 == k1) (a := a) _ h2]
    · have h1 : (a.1 != k) = true := by simp [hk]
      rw [List.filter_cons, if_pos h1]
      by_cases h2 : (a.1 == k1) = true
      · rw [List.find?_cons_of_pos (p := fun q => q.1 == k1) (a := a) _ h2,
          List.find?_cons_of_pos (p := fun q => q.1 == k1) (a := a) _ h2]
      · rw [List.find?_cons_of_neg (p := fun q => q.1 == k1) (a := a) _ h2,
          List.find?_cons_of_neg (p := fun q => q.1 == k1) (a := a) _ h2, ih]

theorem mapLookup_insert_ne (m : List (Int × Nat)) (k k1 : Int) (v : Nat) (h : k1 ≠ k) :
    mapLookup (mapInsert m k v) k1 = mapLookup m k1 := by
  have hne : (k == k1) = false := by simp [Ne.symm h]
  simp [mapLookup, mapInsert, List.find?_cons, hne, find_filter_ne m k k1 h]

theorem counterStep_fst_lookup (ms : List (Int × Nat) × List (Int × Nat)) (r : CounterRow)
    (fid : Int) (h : ¬(r.feedID = fid ∧ r.status = "read")) :
    mapLookup (counterStep ms r).1 fid = mapLookup ms.1 fid := by
  unfold counterStep
  by_cases h1 : r.status = "read"
  · have hf : r.feedID ≠ fid := fun hx => h ⟨hx, h1⟩
    simp [h1, mapLookup_insert_ne _ _ _ _ (Ne.symm hf)]
  · by_cases h2 : r.status = "unread" <;> simp [h1, h2]

theorem counterStep_snd_lookup (ms : List (Int × Nat) × List (Int × Nat)) (r : CounterRow)
    (fid : Int) (h : ¬(r.feedID = fid ∧ r.status = "unread")) :
    mapLookup (counterStep ms r).2 fid = mapLookup ms.2 fid := by
  unfold counterStep
  by_cases h2 : r.status = "unread"
  · have h1 : r.status ≠ "read" := by rw [h2]; decide
    have hf : r.feedID ≠ fid := fun hx => h ⟨hx, h2⟩
    simp [h1, h2, mapLookup_insert_ne _ _ _ _ (Ne.symm hf)]
  · by_cases h1 : r.status = "read" <;> simp [h1, h2]

theorem foldRows_read_lookup (keys : List (Int × String)) (cnt : Int × String → Nat)
    (fid : Int) :
    ∀ ms : List (Int × Nat) × List (Int × Nat), keys.Nodup →
    mapLookup ((keys.map (fun k => CounterRow.mk k.1 k.2 (cnt k))).foldl counterStep ms).1 fid =
      if (fid, "read") ∈ keys then some (cnt (fid, "read")) else mapLookup ms.1 fid := by
  induction keys with
  | nil => intro ms _; simp
  | cons k ks ih =>
    intro ms hnd
    rcases List.nodup_cons.mp hnd with ⟨hk, hks⟩
    rw [List.map_cons, List.foldl_cons, ih _ hks]
    by_cases hkey : k = (fid, "read")
    · subst hkey
      have hmem : (fid, "read") ∉ ks := hk
      simp only [hmem, if_false, List.mem_cons, true_or, if_true]
      show mapLookup (counterStep ms (CounterRow.mk fid "read" (cnt (fid, "read")))).1 fid = _
      simp [counterStep, mapLookup_insert_self]
    · have hstep : mapLookup (counterStep ms (CounterRow.mk k.1 k.2 (cnt k))).1 fid =
          mapLookup ms.1 fid := by
        apply counterStep_fst_lookup
        intro hx
        exact hkey (Prod.ext hx.1 hx.2)
      rw [hstep]
      have hmm : ((fid, "read") ∈ k :: ks) ↔ ((fid, "read") ∈ ks) := by
        rw [List.mem_cons]
        constructor
        · rintro (hx | hx)
          · exact absurd hx.symm hkey
          · exact hx
        · exact Or.inr
      simp only [hmm]

theorem foldRows_unread_lookup (keys : List (Int × String)) (cnt : Int × String → Nat)
    (fid : Int) :
    ∀ ms : List (Int × Nat) × List (Int × Nat), keys.Nodup →
    mapLookup ((keys.map (fun k => CounterRow.mk k.1 k.2 (cnt k))).foldl counterStep ms).2 fid =
      if (fid, "unread") ∈ keys then some (cnt (fid, "unread")) else mapLookup ms.2 fid := by
  induction keys with
  | nil => intro ms _; simp
  | cons k ks ih =>
    intro ms hnd
    rcases List.nodup_cons.mp hnd with ⟨hk, hks⟩
    rw [List.map_cons, List.foldl_cons, ih _ hks]
    by_cases hkey : k = (fid, "unread")
    · subst hkey
      have hmem : (fid, "unread") ∉ ks := hk
      simp only [hmem, if_false, List.mem_cons, true_or, if_true]
      show mapLookup (counterStep ms (CounterRow.mk fid "unread" (cnt (fid, "unread")))).2 fid = _
      simp [counterStep, mapLookup_insert_self]
    · have hstep : mapLookup (counterStep ms (CounterRow.mk k.1 k.2 (cnt k))).2 fid =
          mapLookup ms.2 fid := by
        apply counterStep_snd_lookup
        intro hx
        exact hkey (Prod.ext hx.1 hx.2)
      rw [hstep]
      have hmm : ((fid, "unread") ∈ k :: ks) ↔ ((fid, "unread") ∈ ks) := by
        rw [List.mem_cons]
        constructor
        · rintro (hx | hx)
          · exact absurd hx.symm hkey
          · exact hx
        · exact Or.inr
      simp only [hmm]

theorem readMap_lookup (es : List EntryRow) (fid : Int) :
    mapLookup (fetchFeedCounter (counterRowsOf es)).1 fid =
      if (fid, "read") ∈ (es.map entryKey).dedup then some (groupCount es (fid, "read"))
      else none := by
  have h := foldRows_read_lookup ((es.map entryKey).dedup) (groupCount es) fid ([], [])
    (List.nodup_dedup _)
  simpa [fetchFeedCounter, counterRowsOf, mapLookup] using h

theorem unreadMap_lookup (es : List EntryRow) (fid : Int) :
    mapLookup (fetchFeedCounter (counterRowsOf es)).2 fid =
      if (fid, "unread") ∈ (es.map entryKey).dedup then some (groupCount es (fid, "unread"))
      else none := by
  have h := foldRows_unread_lookup ((es.map entryKey).dedup) (groupCount es) fid ([], [])
    (List.nodup_dedup _)
  simpa [fetchFeedCounter, counterRowsOf, mapLookup] using h

theorem groupCount_eq_zero_of_not_mem (es : List EntryRow) (k : Int × String)
    (h : k ∉ es.map entryKey) : groupCount es k = 0 := by
  unfold groupCount
  rw [List.length_eq_zero, List.filter_eq_nil_iff]
  intro e he hbeq
  exact h (by
    rw [List.mem_map]
    exact ⟨e, he, by simpa using hbeq⟩)

theorem getD_readMap (es : List EntryRow) (fid : Int) :
    (mapLookup (fetchFeedCounter (counterRowsOf es)).1 fid).getD 0 =
      groupCount es (fid, "read") := by
  rw [readMap_lookup]
  by_cases hm : (fid, "read") ∈ (es.map entryKey).dedup
  · simp [hm]
  · rw [if_neg hm, groupCount_eq_zero_of_not_mem]
    · rfl
    · intro hx; exact hm (List.mem_dedup.mpr hx)

theorem getD_unreadMap (es : List EntryRow) (fid : Int) :
    (mapLookup (fetchFeedCounter (counterRowsOf es)).2 fid).getD 0 =
      groupCount es (fid, "unread") := by
  rw [unreadMap_lookup]
  by_cases hm : (fid, "unread") ∈ (es.map entryKey).dedup
  · simp [hm]
  · rw [if_neg hm, groupCount_eq_zero_of_not_mem]
    · rfl
    · intro hx; exact hm (List.mem_dedup.mpr hx)

theorem groupCount_user (db : Db) (uid fid : Int) (st : String)
    (hst : st = "read" ∨ st = "unread") :
    groupCount (userCounterEntries db uid) (fid, st) = statusEntryCount db uid fid st := by
  unfold groupCount userCounterEntries statusEntryCount
  rw [List.filter_filter]
  apply congrArg List.length
  apply List.filter_congr
  intro e _
  apply Bool.eq_iff_iff.mpr
  simp only [entryKey, Bool.and_eq_true, Bool.or_eq_true, beq_iff_eq, Prod.mk.injEq]
  rcases hst with h | h <;> subst h <;> constructor <;> intro hx <;> tauto

theorem find_by_id_of_nodup (l : List FeedRow) (f : FeedRow)
    (hnd : (l.map (fun x => x.id)).Nodup) (hf : f ∈ l) :
    l.find? (fun x => x.id == f.id) = some f := by
  induction l with
  | nil => cases hf
  | cons a as ih =>
    rw [List.map_cons, List.nodup_cons] at hnd
    rcases List.mem_cons.mp hf with rfl | hmem
    · exact List.find?_cons_of_pos (p := fun x => x.id == f.id) (a := f) _ (by simp)
    · have hne : ¬ ((a.id == f.id) = true) := by
        simp only [beq_iff_eq]
        intro he
        exact hnd.1 (he ▸ List.mem_map_of_mem (fun x => x.id) hmem)
      rw [List.find?_cons_of_neg (p := fun x => x.id == f.id) (a := a) _ hne]
      exact ih hnd.2 hmem

theorem groupCount_category (db : Db) (uid cid fid : Int) (st : String)
    (hst : st = "read" ∨ st = "unread")
    (hnd : (db.feeds.map (fun x => x.id)).Nodup)
    (f : FeedRow) (hf : f ∈ db.feeds) (hfid : f.id = fid) (hcat : f.categoryID = cid) :
    groupCount (categoryCounterEntries db uid cid) (fid, st) = statusEntryCount db uid fid st := by
  unfold groupCount categoryCounterEntries statusEntryCount
  rw [List.filter_filter]
  apply congrArg List.length
  apply List.filter_congr
  intro e _
  apply Bool.eq_iff_iff.mpr
  by_cases h2 : e.feedID = fid
  · have hfind : db.feeds.find? (fun x => x.id == e.feedID) = some f := by
      rw [h2, ← hfid]
      exact find_by_id_of_nodup db.feeds f hnd hf
    rw [hfind]
    simp only [entryKey, Bool.and_eq_true, Bool.or_eq_true, beq_iff_eq, Prod.mk.injEq, hcat]
    rcases hst with h | h <;> subst h <;> constructor <;> intro hx <;> tauto
  · simp only [entryKey, Bool.and_eq_true, Bool.or_eq_true, beq_iff_eq, Prod.mk.injEq]
    rcases hst with h | h <;> subst h <;> constructor <;> intro hx <;> tauto

theorem mem_feedListQuery (db : Db) (uid : Int) (r : FeedRow) :
    r ∈ feedListQuery db uid ↔ r ∈ db.feeds ∧ r.userID = uid := by
  unfold feedListQuery
  rw [List.mem_mergeSort, List.mem_filter]
  simp

theorem mem_feedsByCategoryQuery (db : Db) (uid cid : Int) (r : FeedRow) :
    r ∈ feedsByCategoryQuery db uid cid ↔
      r ∈ db.feeds ∧ r.userID = uid ∧ r.categoryID = cid := by
  unfold feedsByCategoryQuery
  rw [List.mem_mergeSort, List.mem_filter]
  simp [and_assoc]

theorem mkFeed_readCount (conv : String → Int → Int) (db : Db)
    (ms : List (Int × Nat) × List (Int × Nat)) (r : FeedRow) :
    (mkFeed conv db ms true r).readCount = (mapLookup ms.1 r.id).getD 0 := rfl

theorem mkFeed_unreadCount (conv : String → Int → Int) (db : Db)
    (ms : List (Int × Nat) × List (Int × Nat)) (r : FeedRow) :
    (mkFeed conv db ms true r).unreadCount = (mapLookup ms.2 r.id).getD 0 := rfl

theorem FeedsWithCounters_ok (conv : String → Int → Int) (db : Db) (uid : Int) :
    FeedsWithCounters conv false false db uid =
      .ok ((feedListQuery db uid).map
        (mkFeed conv db (fetchFeedCounter (counterRowsOf (userCounterEntries db uid))) true)) := rfl

theorem FeedsByCategoryWithCounters_ok (conv : String → Int → Int) (db : Db) (uid cid : Int) :
    FeedsByCategoryWithCounters conv false false db uid cid =
      .ok ((feedsByCategoryQuery db uid cid).map
        (mkFeed conv db (fetchFeedCounter (counterRowsOf (categoryCounterEntries db uid cid))) true)) := rfl

/-- C1: for every user and every feed returned by `FeedsWithCounters` or
`FeedsByCategoryWithCounters`, the read counter equals the number of that
feed's entries with status `read` and the unread counter the number with status
`unread`, independently of entries carrying any other status (the counts range
over exactly one status each); and a feed with no `read` (resp. `unread`)
entries gets counter 0 through the map lookup-miss default rather than an
error (the operation still returns a successful result).  The feed-id
uniqueness hypothesis reflects the primary key of the `feeds` table. -/
theorem C1_counters_match_per_status_entry_counts (conv : String → Int → Int) (db : Db)
    (uid cid : Int) (hnd : (db.feeds.map (fun x => x.id)).Nodup) :
    (∀ l, FeedsWithCounters conv false false db uid = .ok l →
      ∀ f ∈ l, f.readCount = statusEntryCount db uid f.id "read" ∧
        f.unreadCount = statusEntryCount db uid f.id "unread" ∧
        (statusEntryCount db uid f.id "read" = 0 → f.readCount = 0) ∧
        (statusEntryCount db uid f.id "unread" = 0 → f.unreadCount = 0)) ∧
    (∀ l, FeedsByCategoryWithCounters conv false false db uid cid = .ok l →
      ∀ f ∈ l, f.readCount = statusEntryCount db uid f.id "read" ∧
        f.unreadCount = statusEntryCount db uid f.id "unread") := by
  constructor
  · intro l hl f hf
    rw [FeedsWithCounters_ok] at hl
    injection hl with hl
    subst hl
    rcases List.mem_map.mp hf with ⟨r, hr, rfl⟩
    have hid : (mkFeed conv db (fetchFeedCounter (counterRowsOf (userCounterEntries db uid)))
        true r).id = r.id := rfl
    rw [hid, mkFeed_readCount, mkFeed_unreadCount, getD_readMap, getD_unreadMap,
      groupCount_user db uid r.id "read" (Or.inl rfl),
      groupCount_user db uid r.id "unread" (Or.inr rfl)]
    exact ⟨rfl, rfl, fun h => h, fun h => h⟩
  · intro l hl f hf
    rw [FeedsByCategoryWithCounters_ok] at hl
    injection hl with hl
    subst hl
    rcases List.mem_map.mp hf with ⟨r, hr, rfl⟩
    rcases (mem_feedsByCategoryQuery db uid cid r).mp hr with ⟨hrdb, _, hrcat⟩
    have hid : (mkFeed conv db (fetchFeedCounter (counterRowsOf (categoryCounterEntries db uid cid)))
        true r).id = r.id := rfl
    rw [hid, mkFeed_readCount, mkFeed_unreadCount, getD_readMap, getD_unreadMap,
      groupCount_category db uid cid r.id "read" (Or.inl rfl) hnd r hrdb rfl hrcat,
      groupCount_category db uid cid r.id "unread" (Or.inr rfl) hnd r hrdb rfl hrcat]
    exact ⟨rfl, rfl⟩

/-- Witness for C1 at a concrete store: feed 10 of user 1 has two read entries,
one unread entry, one entry of another status and one entry of another user,
and feeds 11 and 12 have no entries at all. -/
theorem C1_witness :
    FeedsWithCounters sampleConv false false sampleDb 1 = Except.ok sampleCountersListed ∧
    ∀ f ∈ sampleCountersListed,
      f.readCount = statusEntryCount sampleDb 1 f.id "read" ∧
      f.unreadCount = statusEntryCount sampleDb 1 f.id "unread" ∧
      (statusEntryCount sampleDb 1 f.id "read" = 0 → f.readCount = 0) ∧
      (statusEntryCount sampleDb 1 f.id "unread" = 0 → f.unreadCount = 0) :=
  ⟨rfl, (C1_counters_match_per_status_entry_counts sampleConv sampleDb 1 7
    (by decide)).1 sampleCountersListed rfl⟩

theorem feedRowLE_trans (a b c : FeedRow) (hab : feedRowLE a b) (hbc : feedRowLE b c) :
    feedRowLE a c := by
  simp only [feedRowLE, decide_eq_true_eq] at *
  rcases hab with h1 | ⟨h1, h2⟩ <;> rcases hbc with h3 | ⟨h3, h4⟩
  · exact Or.inl (by omega)
  · exact Or.inl (by omega)
  · exact Or.inl (by omega)
  · exact Or.inr ⟨by omega, le_trans h2 h4⟩

theorem feedRowLE_total (a b : FeedRow) : feedRowLE a b || feedRowLE b a := by
  simp only [feedRowLE, Bool.or_eq_true, decide_eq_true_eq]
  rcases lt_trichotomy a.parsingErrorCount b.parsingErrorCount with h | h | h
  · exact Or.inr (Or.inl h)
  · rcases le_total a.title.toLower b.title.toLower with ht | ht
    · exact Or.inl (Or.inr ⟨h, ht⟩)
    · exact Or.inr (Or.inr ⟨h.symm, ht⟩)
  · exact Or.inl (Or.inl h)

theorem pairwise_mergeSort_feedRowLE (l : List FeedRow) :
    (l.mergeSort feedRowLE).Pairwise (fun a b => feedRowLE a b) :=
  List.sorted_mergeSort feedRowLE_trans feedRowLE_total l

theorem pairwise_specFeedOrder_map (conv : String → Int → Int) (db : Db)
    (ms : List (Int × Nat) × List (Int × Nat)) (wc : Bool) (rows : List FeedRow)
    (hp : rows.Pairwise (fun a b => feedRowLE a b)) :
    (rows.map (mkFeed conv db ms wc)).Pairwise specFeedOrder := by
  rw [List.pairwise_map]
  apply hp.imp
  intro a b hab
  simp only [feedRowLE, decide_eq_true_eq] at hab
  exact hab

theorem mapped_query_contract (conv : String → Int → Int) (db : Db)
    (ms : List (Int × Nat) × List (Int × Nat)) (wc : Bool) (uid : Int) (rows : List FeedRow)
    (hu : ∀ r ∈ rows, r.userID = uid)
    (hp : rows.Pairwise (fun a b => feedRowLE a b)) :
    (∀ f ∈ rows.map (mkFeed conv db ms wc), f.userID = uid) ∧
    (rows.map (mkFeed conv db ms wc)).Pairwise specFeedOrder := by
  constructor
  · intro f hf
    rcases List.mem_map.mp hf with ⟨r, hr, rfl⟩
    exact hu r hr
  · exact pairwise_specFeedOrder_map conv db ms wc rows hp

/-- C4: every list operation (`Feeds`, `FeedsWithCounters`,
`FeedsByCategoryWithCounters`) returns only feeds owned by the requesting
user, ordered by parsing-error count descending with ties broken by
case-insensitive title ascending. -/
theorem C4_listing_ownership_and_order (conv : String → Int → Int) (db : Db) (uid cid : Int) :
    (∀ l, Feeds conv false db uid = .ok l →
      (∀ f ∈ l, f.userID = uid) ∧ l.Pairwise specFeedOrder) ∧
    (∀ l, FeedsWithCounters conv false false db uid = .ok l →
      (∀ f ∈ l, f.userID = uid) ∧ l.Pairwise specFeedOrder) ∧
    (∀ l, FeedsByCategoryWithCounters conv false false db uid cid = .ok l →
      (∀ f ∈ l, f.userID = uid) ∧ l.Pairwise specFeedOrder) := by
  have hu : ∀ r ∈ feedListQuery db uid, r.userID = uid :=
    fun r hr => ((mem_feedListQuery db uid r).mp hr).2
  have hp : (feedListQuery db uid).Pairwise (fun a b => feedRowLE a b) :=
    pairwise_mergeSort_feedRowLE _
  have huc : ∀ r ∈ feedsByCategoryQuery db uid cid, r.userID = uid :=
    fun r hr => ((mem_feedsByCategoryQuery db uid cid r).mp hr).2.1
  have hpc : (feedsByCategoryQuery db uid cid).Pairwise (fun a b => feedRowLE a b) :=
    pairwise_mergeSort_feedRowLE _
  refine ⟨fun l hl => ?_, fun l hl => ?_, fun l hl => ?_⟩
  · injection hl with hl
    subst hl
    exact mapped_query_contract conv db _ _ uid _ hu hp
  · injection hl with hl
    subst hl
    exact mapped_query_contract conv db _ _ uid _ hu hp
  · injection hl with hl
    subst hl
    exact mapped_query_contract conv db _ _ uid _ huc hpc

/-- Witness for C4 at the concrete sample store: the plain listing of user 1
is owned by user 1 and sorted by the ordering contract. -/
theorem C4_witness :
    Feeds sampleConv false sampleDb 1 = Except.ok sampleListed ∧
    (∀ f ∈ sampleListed, f.userID = 1) ∧ sampleListed.Pairwise specFeedOrder :=
  ⟨rfl, (C4_listing_ownership_and_order sampleConv sampleDb 1 7).1 sampleListed rfl⟩

/-- C5: `FeedByID` returns an absent result (`nil` feed) with no error for
every `(userID, feedID)` pair matching no feed row — including a feed id that
exists but belongs to a different user, which falls under the no-match
hypothesis — while an infrastructure failure is returned as an error, an
outcome distinct from the absent result. -/
theorem C5_feed_by_id_absent_not_error (conv : String → Int → Int) (db : Db) (uid fid : Int) :
    ((∀ f ∈ db.feeds, ¬(f.userID = uid ∧ f.id = fid)) →
      FeedByID conv false db uid fid = .ok none) ∧
    (FeedByID conv true db uid fid = .error (.infra "store: unable to fetch feed")) ∧
    (∀ msg, (Except.ok none : Except StoreErr (Option Feed)) ≠ .error (.infra msg)) := by
  refine ⟨?_, rfl, fun msg h => by cases h⟩
  intro h
  unfold FeedByID
  rw [if_neg (by simp)]
  have hnone : db.feeds.find? (fun f => f.userID == uid && f.id == fid) = none := by
    rw [List.find?_eq_none]
    intro f hf
    simp only [Bool.and_eq_true, beq_iff_eq]
    exact fun hx => h f hf hx
  rw [hnone]

/-- Witness for C5: feed 13 exists in the sample store but belongs to user 2,
so user 1 gets the absent non-error result; with a failing query the same call
returns an error instead. -/
theorem C5_witness :
    FeedByID sampleConv false sampleDb 1 13 = Except.ok none ∧
    FeedByID sampleConv true sampleDb 1 13 =
      Except.error (.infra "store: unable to fetch feed") :=
  ⟨(C5_feed_by_id_absent_not_error sampleConv sampleDb 1 13).1 (by decide),
   (C5_feed_by_id_absent_not_error sampleConv sampleDb 1 13).2.1⟩

theorem removeFeed_eq (db : Db) (uid fid : Int) :
    RemoveFeed false false db uid fid =
      (if (db.feeds.filter (fun f => f.id == fid && f.userID == uid)).length = 0
        then .error .nothingRemoved else .ok (),
       { db with feeds := db.feeds.filter (fun f => !(f.id == fid && f.userID == uid)) }) := by
  unfold RemoveFeed
  by_cases h : (db.feeds.filter (fun f => f.id == fid && f.userID == uid)).length = 0 <;>
    simp [h]

/-- C6: `RemoveFeed` deletes exactly the rows matching both the feed id and the
owning user; a delete affecting zero rows yields the distinguished
`nothing was removed` error (distinct from an infrastructure failure) and
leaves the store unchanged, a delete affecting exactly one row succeeds, and
infrastructure failures of the statement or of `RowsAffected` are errors. -/
theorem C6_remove_scoped_zero_rows_error (db : Db) (uid fid : Int) :
    ((RemoveFeed false false db uid fid).2.feeds =
      db.feeds.filter (fun f => !(f.id == fid && f.userID == uid))) ∧
    (∀ f ∈ db.feeds, ¬(f.id = fid ∧ f.userID = uid) →
      f ∈ (RemoveFeed false false db uid fid).2.feeds) ∧
    (∀ f ∈ (RemoveFeed false false db uid fid).2.feeds,
      f ∈ db.feeds ∧ ¬(f.id = fid ∧ f.userID = uid)) ∧
    ((∀ f ∈ db.feeds, ¬(f.id = fid ∧ f.userID = uid)) →
      (RemoveFeed false false db uid fid).1 = .error .nothingRemoved ∧
      (RemoveFeed false false db uid fid).2 = db) ∧
    ((db.feeds.filter (fun f => f.id == fid && f.userID == uid)).length = 1 →
      (RemoveFeed false false db uid fid).1 = .ok ()) ∧
    (∀ msg, StoreErr.nothingRemoved ≠ .infra msg) ∧
    (∀ r, (RemoveFeed true r db uid fid).1 = .error (.infra "store: unable to remove feed")) ∧
    ((RemoveFeed false true db uid fid).1 = .error (.infra "store: unable to remove feed")) := by
  have hfeeds : (RemoveFeed false false db uid fid).2.feeds =
      db.feeds.filter (fun f => !(f.id == fid && f.userID == uid)) := by
    rw [removeFeed_eq]
  have hnotp : ∀ f : FeedRow, ¬(f.id = fid ∧ f.userID = uid) →
      (!(f.id == fid && f.userID == uid)) = true := by
    intro f hne
    simp only [Bool.not_eq_eq_eq_not, Bool.not_true, Bool.and_eq_false_iff,
      beq_eq_false_iff_ne, ne_eq]
    by_cases h1 : f.id = fid
    · exact Or.inr (fun h2 => hne ⟨h1, h2⟩)
    · exact Or.inl h1
  refine ⟨hfeeds, ?_, ?_, ?_, ?_, ?_, fun r => rfl, rfl⟩
  · intro f hf hne
    rw [hfeeds, List.mem_filter]
    exact ⟨hf, hnotp f hne⟩
  · intro f hf
    rw [hfeeds, List.mem_filter] at hf
    refine ⟨hf.1, ?_⟩
    have h2 := hf.2
    simp only [Bool.not_eq_eq_eq_not, Bool.not_true, Bool.and_eq_false_iff,
      beq_eq_false_iff_ne, ne_eq] at h2
    rintro ⟨ha, hb⟩
    rcases h2 with h2 | h2
    · exact h2 ha
    · exact h2 hb
  · intro h
    have hmatch : db.feeds.filter (fun f => f.id == fid && f.userID == uid) = [] := by
      rw [List.filter_eq_nil_iff]
      intro f hf
      simp only [Bool.and_eq_true, beq_iff_eq]
      exact fun hx => h f hf hx
    have hkeep : db.feeds.filter (fun f => !(f.id == fid && f.userID == uid)) = db.feeds := by
      rw [List.filter_eq_self]
      intro f hf
      exact hnotp f (h f hf)
    constructor
    · rw [removeFeed_eq]
      simp [hmatch]
    · rw [removeFeed_eq]
      simp only [hkeep]
  · intro h
    rw [removeFeed_eq]
    simp only [h]
    rfl
  · intro msg h
    cases h

/-- Witness for C6: removing feed 13 as user 1 (which does not own it) yields
the distinguished zero-rows error and leaves the store unchanged; removing it
as its owner, user 2, succeeds. -/
theorem C6_witness :
    (RemoveFeed false false sampleDb 1 13).1 = Except.error .nothingRemoved ∧
    (RemoveFeed false false sampleDb 1 13).2 = sampleDb ∧
    (RemoveFeed false false sampleDb 2 13).1 = Except.ok () :=
  ⟨((C6_remove_scoped_zero_rows_error sampleDb 1 13).2.2.2.1 (by decide)).1,
   ((C6_remove_scoped_zero_rows_error sampleDb 1 13).2.2.2.1 (by decide)).2,
   (C6_remove_scoped_zero_rows_error sampleDb 2 13).2.2.2.2.1 (by decide)⟩

theorem countAllStep_fold (vals : List Bool) (cnt : Bool → Nat) :
    ∀ e d : Nat, vals.Nodup →
    ((vals.map (fun b => (b, cnt b))).foldl countAllStep (e, d)) =
      ((if false ∈ vals then cnt false else e), (if true ∈ vals then cnt true else d)) := by
  induction vals with
  | nil => intro e d _; simp
  | cons b bs ih =>
    intro e d hnd
    rcases List.nodup_cons.mp hnd with ⟨hb, hbs⟩
    rw [List.map_cons, List.foldl_cons]
    cases b
    · have hstep : countAllStep (e, d) (false, cnt false) = (cnt false, d) := rfl
      rw [hstep, ih (cnt false) d hbs]
      have hf : false ∉ bs := hb
      by_cases ht : true ∈ bs <;> simp [hf, ht, List.mem_cons]
    · have hstep : countAllStep (e, d) (true, cnt true) = (e, cnt true) := rfl
      rw [hstep, ih e (cnt true) hbs]
      have ht : true ∉ bs := hb
      by_cases hf : false ∈ bs <;> simp [hf, ht, List.mem_cons]

/-- C7: the aggregate map of `CountAllFeeds` always satisfies
`total = enabled + disabled` (the code computes the total as the sum of the
two preset-to-zero groups, not with a separate query), and the two groups
equal the enabled/disabled row counts with a missing group defaulting to
zero — including the empty store, where all three are zero. -/
theorem C7_count_all_total_is_sum (db : Db) :
    ∀ m, CountAllFeeds false db = some m →
      m.total = m.enabled + m.disabled ∧
      m.enabled = (db.feeds.filter (fun f => f.disabled == false)).length ∧
      m.disabled = (db.feeds.filter (fun f => f.disabled == true)).length := by
  intro m hm
  unfold CountAllFeeds countAllRows at hm
  rw [if_neg (by simp)] at hm
  rw [countAllStep_fold _ _ 0 0 (List.nodup_dedup _)] at hm
  injection hm with hm
  subst hm
  refine ⟨Nat.add_comm _ _, ?_, ?_⟩
  · show (if false ∈ (db.feeds.map (fun f => f.disabled)).dedup
      then (db.feeds.filter (fun f => f.disabled == false)).length else 0) = _
    by_cases hf : false ∈ (db.feeds.map (fun f => f.disabled)).dedup
    · rw [if_pos hf]
    · rw [if_neg hf]
      have : db.feeds.filter (fun f => f.disabled == false) = [] := by
        rw [List.filter_eq_nil_iff]
        intro f hfm
        simp only [beq_iff_eq]
        intro hx
        exact hf (List.mem_dedup.mpr (List.mem_map.mpr ⟨f, hfm, hx⟩))
      rw [this]
      rfl
  · show (if true ∈ (db.feeds.map (fun f => f.disabled)).dedup
      then (db.feeds.filter (fun f => f.disabled == true)).length else 0) = _
    by_cases ht : true ∈ (db.feeds.map (fun f => f.disabled)).dedup
    · rw [if_pos ht]
    · rw [if_neg ht]
      have : db.feeds.filter (fun f => f.disabled == true) = [] := by
        rw [List.filter_eq_nil_iff]
        intro f hfm
        simp only [beq_iff_eq]
        intro hx
        exact ht (List.mem_dedup.mpr (List.mem_map.mpr ⟨f, hfm, hx⟩))
      rw [this]
      rfl

/-- Witness for C7: the sample store has four enabled feeds and no disabled
one, and the empty store reports zero everywhere. -/
theorem C7_witness :
    (CountAllFeeds false sampleDb = some { enabled := 4, disabled := 0, total := 4 } ∧
      (4 : Nat) = 4 + 0) ∧
    (CountAllFeeds false emptyDb = some { enabled := 0, disabled := 0, total := 0 }) :=
  ⟨⟨by decide, (C7_count_all_total_is_sum sampleDb { enabled := 4, disabled := 0, total := 4 }
      (by decide)).1⟩,
   by decide⟩

/-- C8: `WeeklyFeedEntryCount` counts exactly the user's entries of the feed
published inside the closed trailing seven-day window ending now: the SQL
`BETWEEN` bounds are inclusive, so an entry published exactly at `now` is
inside the window while one published more than seven days earlier is outside;
no matching rows gives the count 0 with no error, and an infrastructure
failure is propagated as an error. -/
theorem C8_weekly_window_closed (db : Db) (now uid fid : Int) :
    (WeeklyFeedEntryCount false db now uid fid =
      .ok ((db.entries.filter (fun e =>
        e.userID == uid && e.feedID == fid &&
          decide (inTrailingWeek now e.publishedAt))).length)) ∧
    inTrailingWeek now now ∧
    (∀ p, p < now - 7 * 86400 → ¬ inTrailingWeek now p) ∧
    (db.entries = [] → WeeklyFeedEntryCount false db now uid fid = .ok 0) ∧
    (WeeklyFeedEntryCount true db now uid fid =
      .error (.infra "store: unable to fetch weekly count for feed")) := by
  have hfilter : ∀ e : EntryRow,
      (e.userID == uid && e.feedID == fid && sqlBetween e.publishedAt (now - oneWeek) now) =
      (e.userID == uid && e.feedID == fid && decide (inTrailingWeek now e.publishedAt)) := by
    intro e
    simp [sqlBetween, inTrailingWeek, oneWeek]
  refine ⟨?_, ⟨by omega, le_refl now⟩, ?_, ?_, rfl⟩
  · unfold WeeklyFeedEntryCount
    rw [if_neg (by simp)]
    congr 1
    apply congrArg List.length
    apply List.filter_congr
    intro e _
    exact hfilter e
  · intro p hp hin
    rcases hin with ⟨h1, _⟩
    omega
  · intro h
    unfold WeeklyFeedEntryCount
    rw [if_neg (by simp), h]
    rfl

/-- Witness for C8: over the sample store at instant 0 the four entries of
feed 10 owned by user 1 (all published at 0, the upper boundary) are counted;
the instant itself lies in the window, an instant 604801 seconds earlier does
not, and a store without entries counts zero. -/
theorem C8_witness :
    WeeklyFeedEntryCount false sampleDb 0 1 10 = Except.ok 4 ∧
    inTrailingWeek 0 0 ∧
    ¬ inTrailingWeek 0 (-604801) ∧
    WeeklyFeedEntryCount false emptyEntriesDb 0 1 10 = Except.ok 0 :=
  ⟨rfl,
   (C8_weekly_window_closed sampleDb 0 1 10).2.1,
   (C8_weekly_window_closed sampleDb 0 1 10).2.2.1 (-604801) (by decide),
   (C8_weekly_window_closed emptyEntriesDb 0 1 10).2.2.2.1 rfl⟩

/-- C9: `UpdateFeedError` rewrites every feed row through
`applyFeedErrorUpdate`: a row not matching the id and owning user of the
payload is returned unchanged, a matching row gets exactly the four columns of
the `SET` clause overwritten and keeps every other persisted field; the other
tables of the store are untouched. -/
theorem C9_update_error_narrow_frame (db : Db) (f : Feed) :
    (UpdateFeedError false db f).1 = .ok () ∧
    (UpdateFeedError false db f).2.feeds = db.feeds.map (applyFeedErrorUpdate f) ∧
    (UpdateFeedError false db f).2.categories = db.categories ∧
    (UpdateFeedError false db f).2.feedIcons = db.feedIcons ∧
    (UpdateFeedError false db f).2.users = db.users ∧
    (UpdateFeedError false db f).2.entries = db.entries ∧
    (∀ r : FeedRow, ¬(r.id = f.id ∧ r.userID = f.userID) → applyFeedErrorUpdate f r = r) ∧
    (∀ r : FeedRow, r.id = f.id ∧ r.userID = f.userID →
      (applyFeedErrorUpdate f r).parsingErrorMsg = f.parsingErrorMsg ∧
      (applyFeedErrorUpdate f r).parsingErrorCount = f.parsingErrorCount ∧
      (applyFeedErrorUpdate f r).checkedAt = f.checkedAt ∧
      (applyFeedErrorUpdate f r).nextCheckAt = f.nextCheckAt ∧
      (applyFeedErrorUpdate f r).id = r.id ∧
      (applyFeedErrorUpdate f r).feedURL = r.feedURL ∧
      (applyFeedErrorUpdate f r).siteURL = r.siteURL ∧
      (applyFeedErrorUpdate f r).title = r.title ∧
      (applyFeedErrorUpdate f r).etagHeader = r.etagHeader ∧
      (applyFeedErrorUpdate f r).lastModifiedHeader = r.lastModifiedHeader ∧
      (applyFeedErrorUpdate f r).userID = r.userID ∧
      (applyFeedErrorUpdate f r).scraperRules = r.scraperRules ∧
      (applyFeedErrorUpdate f r).rewriteRules = r.rewriteRules ∧
      (applyFeedErrorUpdate f r).crawler = r.crawler ∧
      (applyFeedErrorUpdate f r).userAgent = r.userAgent ∧
      (applyFeedErrorUpdate f r).username = r.username ∧
      (applyFeedErrorUpdate f r).password = r.password ∧
      (applyFeedErrorUpdate f r).ignoreHTTPCache = r.ignoreHTTPCache ∧
      (applyFeedErrorUpdate f r).fetchViaProxy = r.fetchViaProxy ∧
      (applyFeedErrorUpdate f r).disabled = r.disabled ∧
      (applyFeedErrorUpdate f r).categoryID = r.categoryID) := by
  refine ⟨rfl, rfl, rfl, rfl, rfl, rfl, ?_, ?_⟩
  · intro r hne
    unfold applyFeedErrorUpdate
    rw [if_neg]
    simp only [Bool.and_eq_true, beq_iff_eq]
    exact hne
  · intro r hmatch
    unfold applyFeedErrorUpdate
    rw [if_pos (by simp only [Bool.and_eq_true, beq_iff_eq]; exact hmatch)]
    exact ⟨rfl, rfl, rfl, rfl, rfl, rfl, rfl, rfl, rfl, rfl, rfl, rfl, rfl, rfl, rfl,
      rfl, rfl, rfl, rfl, rfl, rfl⟩

/-- Witness for C9: updating the error state of feed 12 of user 1 leaves the
row of feed 10 untouched and rewrites the four error-state columns of feed 12
while keeping its title. -/
theorem C9_witness :
    applyFeedErrorUpdate sampleErrFeed (sampleFeedRow 10 1 "Beta" 0) =
      sampleFeedRow 10 1 "Beta" 0 ∧
    (applyFeedErrorUpdate sampleErrFeed (sampleFeedRow 12 1 "Gamma" 2)).parsingErrorMsg =
      sampleErrFeed.parsingErrorMsg ∧
    (applyFeedErrorUpdate sampleErrFeed (sampleFeedRow 12 1 "Gamma" 2)).title = "Gamma" ∧
    (UpdateFeedError false sampleDb sampleErrFeed).2.entries = sampleDb.entries :=
  ⟨(C9_update_error_narrow_frame sampleDb sampleErrFeed).2.2.2.2.2.2.1
      (sampleFeedRow 10 1 "Beta" 0) (by decide),
   ((C9_update_error_narrow_frame sampleDb sampleErrFeed).2.2.2.2.2.2.2
      (sampleFeedRow 12 1 "Gamma" 2) (by decide)).1,
   ((C9_update_error_narrow_frame sampleDb sampleErrFeed).2.2.2.2.2.2.2
      (sampleFeedRow 12 1 "Gamma" 2) (by decide)).2.2.2.2.2.2.2.1,
   (C9_update_error_narrow_frame sampleDb sampleErrFeed).2.2.2.2.2.1⟩

/-- Counterexample for C3: the claim asserts that `CountFeeds` (and the other
count aggregates) propagate infrastructure failures rather than folding them
into a default value, but on a failing round trip `CountFeeds` returns the
default 0 — with no error channel at all in its result type — although user 1
owns three feeds in the sample store; `CountAllFeeds` likewise folds the
failure into `nil` and the two error counts into 0. -/
theorem C3_counterexample :
    CountFeeds true sampleDb 1 = 0 ∧
    CountFeeds false sampleDb 1 = 3 ∧
    CountAllFeeds true sampleDb = none ∧
    CountUserFeedsWithErrors true sampleDb 1 = 0 ∧
    CountAllFeedsWithErrors true sampleDb = 0 := by
  decide

/-- C3 (amended): the fetch, listing and mutation operations of the layer
(`Feeds`, `FeedsWithCounters`, `FeedsByCategoryWithCounters`,
`WeeklyFeedEntryCount`, `FeedByID`, `CreateFeed`, `UpdateFeed`,
`UpdateFeedError`, `RemoveFeed`, `ResetFeedErrors`) propagate an
infrastructure failure to the caller as an error, while the existence-check
predicates fold such a failure into `false` and the four count aggregates
(`CountFeeds`, `CountAllFeeds`, `CountUserFeedsWithErrors`,
`CountAllFeedsWithErrors`) fold it into a default value (0, or `nil` for
`CountAllFeeds`) instead of propagating it. -/
theorem C3_amended_failure_propagation (conv : String → Int → Int) (db : Db)
    (uid cid fid now g : Int) (url : String) (f : Feed) (ts : List TxOracle)
    (es : List EntryRow) (r : Bool) :
    Feeds conv true db uid = .error (.infra "store: unable to fetch feeds") ∧
    FeedsWithCounters conv true r db uid =
      .error (.infra "store: unable to fetch feed counts") ∧
    FeedsWithCounters conv false true db uid =
      .error (.infra "store: unable to fetch feeds") ∧
    FeedsByCategoryWithCounters conv true r db uid cid =
      .error (.infra "store: unable to fetch feed counts") ∧
    FeedsByCategoryWithCounters conv false true db uid cid =
      .error (.infra "store: unable to fetch feeds") ∧
    WeeklyFeedEntryCount true db now uid fid =
      .error (.infra "store: unable to fetch weekly count for feed") ∧
    FeedByID conv true db uid fid = .error (.infra "store: unable to fetch feed") ∧
    (CreateFeed { insertFeedFails := true, genID := g, txs := ts } db f es).1 =
      .error (.infra "store: unable to create feed") ∧
    (UpdateFeed true db f).1 = .error (.infra "store: unable to update feed") ∧
    (UpdateFeedError true db f).1 = .error (.infra "store: unable to update feed error") ∧
    (RemoveFeed true r db uid fid).1 = .error (.infra "store: unable to remove feed") ∧
    (RemoveFeed false true db uid fid).1 = .error (.infra "store: unable to remove feed") ∧
    (ResetFeedErrors true db).1 = .error (.infra "driver failure") ∧
    FeedExists true db uid fid = false ∧
    FeedURLExists true db uid url = false ∧
    AnotherFeedURLExists true db uid fid url = false ∧
    CountFeeds true db uid = 0 ∧
    CountAllFeeds true db = none ∧
    CountUserFeedsWithErrors true db uid = 0 ∧
    CountAllFeedsWithErrors true db = 0 :=
  ⟨rfl, rfl, rfl, rfl, rfl, rfl, rfl, rfl, rfl, rfl, rfl, rfl, rfl, rfl, rfl, rfl,
   rfl, rfl, rfl, rfl⟩

theorem headD_eq_getD (l : List TxOracle) (d : TxOracle) : l.headD d = l.getD 0 d := by
  cases l <;> rfl

theorem getD_tail (l : List TxOracle) (k : Nat) (d : TxOracle) :
    l.tail.getD k d = l.getD (k + 1) d := by
  cases l <;> rfl

theorem prepSeq_cons (fid uid : Int) (e : EntryRow) (es : List EntryRow) :
    prepSeq fid uid (e :: es) = prepareEntry fid uid e :: prepSeq fid uid es := rfl

theorem dedupRun_cons (tbl : List EntryRow) (x : EntryRow) (xs : List EntryRow) :
    dedupRun tbl (x :: xs) = dedupRun (dedupInsert tbl x) xs := rfl

theorem entryTxLoop_cons_eq (fid uid : Int) (e : EntryRow) (es : List EntryRow)
    (os : List TxOracle) (tbl : List EntryRow) :
    entryTxLoop fid uid (e :: es) os tbl =
      (if (os.headD {}).beginFails then (.error beginErr, tbl)
       else if entryExistsTx (os.headD {}).checkFails tbl (prepareEntry fid uid e) then
         if (os.headD {}).commitFails then (.error commitErr, tbl)
         else entryTxLoop fid uid es os.tail tbl
       else if (os.headD {}).checkFails || (os.headD {}).insertFails then
         (.error createEntryErr, tbl)
       else if (os.headD {}).commitFails then (.error commitErr, tbl)
       else entryTxLoop fid uid es os.tail (tbl ++ [prepareEntry fid uid e])) := rfl

theorem entryTxLoop_step_ok (fid uid : Int) (e : EntryRow) (es : List EntryRow)
    (os : List TxOracle) (tbl : List EntryRow)
    (h : stepFails (os.headD {}) tbl (prepareEntry fid uid e) = false) :
    entryTxLoop fid uid (e :: es) os tbl =
      entryTxLoop fid uid es os.tail (dedupInsert tbl (prepareEntry fid uid e)) := by
  rw [entryTxLoop_cons_eq]
  set o := os.headD ({} : TxOracle) with ho
  simp only [stepFails] at h
  rcases Bool.or_eq_false_iff.mp h with ⟨h1, h4⟩
  rcases Bool.or_eq_false_iff.mp h1 with ⟨h2, hcm⟩
  rcases Bool.or_eq_false_iff.mp h2 with ⟨hb, hc⟩
  rw [hb, hc]
  cases hany : tbl.any (fun x => sameIdentity x (prepareEntry fid uid e))
  · have hi : o.insertFails = false := by
      rcases Bool.and_eq_false_iff.mp h4 with hi | hno
      · exact hi
      · rw [hany] at hno
        simp at hno
    rw [hi, hcm]
    simp [entryExistsTx, dedupInsert, hany]
  · rw [hcm]
    simp [entryExistsTx, dedupInsert, hany]

theorem entryTxLoop_step_fail (fid uid : Int) (e : EntryRow) (es : List EntryRow)
    (os : List TxOracle) (tbl : List EntryRow)
    (h : stepFails (os.headD {}) tbl (prepareEntry fid uid e) = true) :
    ∃ err, entryTxLoop fid uid (e :: es) os tbl = (.error err, tbl) := by
  rw [entryTxLoop_cons_eq]
  set o := os.headD ({} : TxOracle) with ho
  cases hb : o.beginFails
  · cases hc : o.checkFails
    · cases hany : tbl.any (fun x => sameIdentity x (prepareEntry fid uid e))
      · cases hi : o.insertFails
        · have hcm : o.commitFails = true := by
            simp only [stepFails, hb, hc, hi, hany] at h
            simpa using h
          rw [hcm]
          exact ⟨commitErr, by simp [entryExistsTx, hany]⟩
        · exact ⟨createEntryErr, by simp [entryExistsTx, hany]⟩
      · have hcm : o.commitFails = true := by
          simp only [stepFails, hb, hc, hany] at h
          simpa using h
        rw [hcm]
        exact ⟨commitErr, by simp [entryExistsTx, hany]⟩
    · exact ⟨createEntryErr, by simp [entryExistsTx]⟩
  · exact ⟨beginErr, by simp⟩

theorem shift_step (fid uid : Int) (e : EntryRow) (es : List EntryRow)
    (os : List TxOracle) (tbl : List EntryRow) (j : Nat) :
    stepFails (os.getD (j + 1) {}) (dedupRun tbl (prepSeq fid uid ((e :: es).take (j + 1))))
      (prepareEntry fid uid ((e :: es).getD (j + 1) emptyEntry)) =
    stepFails (os.tail.getD j {})
      (dedupRun (dedupInsert tbl (prepareEntry fid uid e)) (prepSeq fid uid (es.take j)))
      (prepareEntry fid uid (es.getD j emptyEntry)) := by
  rw [List.take_succ_cons, prepSeq_cons, dedupRun_cons, List.getD_cons_succ, getD_tail]

theorem entryTxLoop_ok_of_no_failure (fid uid : Int) :
    ∀ (es : List EntryRow) (os : List TxOracle) (tbl : List EntryRow),
    (∀ k, k < es.length →
      stepFails (os.getD k {}) (dedupRun tbl (prepSeq fid uid (es.take k)))
        (prepareEntry fid uid (es.getD k emptyEntry)) = false) →
    entryTxLoop fid uid es os tbl = (.ok (), dedupRun tbl (prepSeq fid uid es)) := by
  intro es
  induction es with
  | nil => intro os tbl _; rfl
  | cons e es ih =>
    intro os tbl h
    have h0 := h 0 (Nat.succ_pos _)
    rw [entryTxLoop_step_ok fid uid e es os tbl (by
      rw [headD_eq_getD]
      exact h0)]
    rw [ih os.tail (dedupInsert tbl (prepareEntry fid uid e)) (fun k hk => by
      have hk1 := h (k + 1) (Nat.succ_lt_succ hk)
      rw [shift_step] at hk1
      exact hk1)]
    rw [prepSeq_cons, dedupRun_cons]

theorem entryTxLoop_error_at_first_failure (fid uid : Int) :
    ∀ (es : List EntryRow) (os : List TxOracle) (tbl : List EntryRow) (k : Nat),
    k < es.length →
    (∀ j, j < k →
      stepFails (os.getD j {}) (dedupRun tbl (prepSeq fid uid (es.take j)))
        (prepareEntry fid uid (es.getD j emptyEntry)) = false) →
    stepFails (os.getD k {}) (dedupRun tbl (prepSeq fid uid (es.take k)))
      (prepareEntry fid uid (es.getD k emptyEntry)) = true →
    ∃ err, entryTxLoop fid uid es os tbl =
      (.error err, dedupRun tbl (prepSeq fid uid (es.take k))) := by
  intro es
  induction es with
  | nil => intro os tbl k hk _ _; exact absurd hk (Nat.not_lt_zero k)
  | cons e es ih =>
    intro os tbl k hk hprev hfail
    cases k with
    | zero =>
      obtain ⟨err, herr⟩ := entryTxLoop_step_fail fid uid e es os tbl (by
        rw [headD_eq_getD]
        exact hfail)
      exact ⟨err, herr⟩
    | succ k =>
      have h0 := hprev 0 (Nat.succ_pos k)
      rw [entryTxLoop_step_ok fid uid e es os tbl (by
        rw [headD_eq_getD]
        exact h0)]
      rw [shift_step] at hfail
      obtain ⟨err, herr⟩ := ih os.tail (dedupInsert tbl (prepareEntry fid uid e)) k
        (Nat.lt_of_succ_lt_succ hk)
        (fun j hj => by
          have hj1 := hprev (j + 1) (Nat.succ_lt_succ hj)
          rw [shift_step] at hj1
          exact hj1)
        hfail
      refine ⟨err, ?_⟩
      rw [herr, List.take_succ_cons, prepSeq_cons, dedupRun_cons]

theorem createFeed_entries_eq (o : CreateOracle) (db : Db) (feed : Feed)
    (payload : List EntryRow) (hins : o.insertFeedFails = false) :
    (CreateFeed o db feed payload).1 =
      (entryTxLoop o.genID feed.userID payload o.txs db.entries).1 ∧
    (CreateFeed o db feed payload).2.entries =
      (entryTxLoop o.genID feed.userID payload o.txs db.entries).2 ∧
    (CreateFeed o db feed payload).2.feeds =
      db.feeds ++ [feedRowOfInsert o.genID feed] := by
  unfold CreateFeed
  rw [hins]
  exact ⟨rfl, rfl, rfl⟩

/-- C2: during `CreateFeed` each pending entry is processed in its own
transaction — begin, existence check, insert only if absent, commit.  If every
iteration is failure-free the creation succeeds and the `entries` table is the
deduplicating run over all prepared entries; if iteration `k` is the first one
to fail (begin failure, existence-check infrastructure failure, insert failure
on an absent entry, or commit failure), the whole creation aborts with an
error and the final `entries` table is exactly the run over the first `k`
entries: the in-flight transaction of entry `k` contributed nothing (it was
rolled back or its commit discarded), while entries committed by earlier
iterations remain committed with no compensating rollback. -/
theorem C2_create_per_entry_transaction (o : CreateOracle) (db : Db) (feed : Feed)
    (payload : List EntryRow) (hins : o.insertFeedFails = false) :
    ((∀ k, k < payload.length →
        stepFails (o.txs.getD k {})
          (dedupRun db.entries (prepSeq o.genID feed.userID (payload.take k)))
          (prepareEntry o.genID feed.userID (payload.getD k emptyEntry)) = false) →
      (CreateFeed o db feed payload).1 = .ok () ∧
      (CreateFeed o db feed payload).2.entries =
        dedupRun db.entries (prepSeq o.genID feed.userID payload)) ∧
    (∀ k, k < payload.length →
      (∀ j, j < k →
        stepFails (o.txs.getD j {})
          (dedupRun db.entries (prepSeq o.genID feed.userID (payload.take j)))
          (prepareEntry o.genID feed.userID (payload.getD j emptyEntry)) = false) →
      stepFails (o.txs.getD k {})
        (dedupRun db.entries (prepSeq o.genID feed.userID (payload.take k)))
        (prepareEntry o.genID feed.userID (payload.getD k emptyEntry)) = true →
      ∃ err, (CreateFeed o db feed payload).1 = .error err ∧
        (CreateFeed o db feed payload).2.entries =
          dedupRun db.entries (prepSeq o.genID feed.userID (payload.take k))) := by
  obtain ⟨hres, hent, _⟩ := createFeed_entries_eq o db feed payload hins
  constructor
  · intro h
    have hloop := entryTxLoop_ok_of_no_failure o.genID feed.userID payload o.txs db.entries h
    constructor
    · rw [hres, hloop]
    · rw [hent, hloop]
  · intro k hk hprev hfail
    obtain ⟨err, herr⟩ := entryTxLoop_error_at_first_failure o.genID feed.userID payload
      o.txs db.entries k hk hprev hfail
    refine ⟨err, ?_, ?_⟩
    · rw [hres, herr]
    · rw [hent, herr]

/-- Witness for C2 at concrete inputs: with the second entry transaction
failing at commit, the creation aborts with an error and the persisted
`entries` table is exactly the run over the first entry — the first entry's
transaction remains committed, the failing one contributed nothing. -/
theorem C2_witness :
    (CreateFeed sampleCreateOracle sampleDb sampleFeedPayload sampleTxEntries).1 ≠
      Except.ok () ∧
    (CreateFeed sampleCreateOracle sampleDb sampleFeedPayload sampleTxEntries).2.entries =
      dedupRun sampleDb.entries (prepSeq 77 1 (sampleTxEntries.take 1)) := by
  obtain ⟨err, h1, h2⟩ :=
    (C2_create_per_entry_transaction sampleCreateOracle sampleDb sampleFeedPayload
      sampleTxEntries rfl).2 1 (by decide)
      (fun j hj => by
        have hj0 : j = 0 := by omega
        subst hj0
        decide)
      (by decide)
  constructor
  · rw [h1]
    intro hx
    cases hx
  · exact h2

theorem entryTxLoop_appends_prepared (fid uid : Int) :
    ∀ (es : List EntryRow) (os : List TxOracle) (tbl : List EntryRow),
    ∃ new, (entryTxLoop fid uid es os tbl).2 = tbl ++ new ∧
      ∀ x ∈ new, x.feedID = fid ∧ x.userID = uid := by
  intro es
  induction es with
  | nil =>
    intro os tbl
    exact ⟨[], by simp [entryTxLoop], by simp⟩
  | cons e es ih =>
    intro os tbl
    rw [entryTxLoop_cons_eq]
    set o := os.headD ({} : TxOracle) with ho
    cases hb : o.beginFails
    · cases hex : entryExistsTx o.checkFails tbl (prepareEntry fid uid e)
      · cases hci : o.checkFails || o.insertFails
        · cases hcm : o.commitFails
          · obtain ⟨new, hnew, hall⟩ := ih os.tail (tbl ++ [prepareEntry fid uid e])
            refine ⟨prepareEntry fid uid e :: new, ?_, ?_⟩
            · simp only [hex, hci, hcm, Bool.false_eq_true, if_false]
              rw [hnew, List.append_assoc]
              rfl
            · intro x hx
              rcases List.mem_cons.mp hx with rfl | hx
              · exact ⟨rfl, rfl⟩
              · exact hall x hx
          · exact ⟨[], by simp [hex, hci, hcm], by simp⟩
        · exact ⟨[], by simp [hex, hci], by simp⟩
      · cases hcm : o.commitFails
        · obtain ⟨new, hnew, hall⟩ := ih os.tail tbl
          exact ⟨new, by simp only [hex, hcm, Bool.false_eq_true, if_false, if_true]; exact hnew,
            hall⟩
        · exact ⟨[], by simp [hex, hcm], by simp⟩
    · exact ⟨[], by simp, by simp⟩

theorem entryTxLoop_congr_prepared (fid uid : Int) :
    ∀ (es es2 : List EntryRow) (os : List TxOracle) (tbl : List EntryRow),
    es.map (prepareEntry fid uid) = es2.map (prepareEntry fid uid) →
    entryTxLoop fid uid es os tbl = entryTxLoop fid uid es2 os tbl := by
  intro es
  induction es with
  | nil =>
    intro es2 os tbl h
    rw [List.map_nil] at h
    cases es2 with
    | nil => rfl
    | cons x xs => simp at h
  | cons e es ih =>
    intro es2 os tbl h
    cases es2 with
    | nil => simp at h
    | cons e2 es2 =>
      rw [List.map_cons, List.map_cons] at h
      injection h with h1 h2
      rw [entryTxLoop_cons_eq, entryTxLoop_cons_eq, h1, ih es2 os.tail tbl h2,
        ih es2 os.tail (tbl ++ [prepareEntry fid uid e2]) h2]

theorem prepareEntry_override (fid uid : Int) (e : EntryRow) (g1 g2 : EntryRow → Int) :
    prepareEntry fid uid { e with feedID := g1 e, userID := g2 e } =
      prepareEntry fid uid e := rfl

theorem prepSeq_override (fid uid : Int) (es : List EntryRow) (g1 g2 : EntryRow → Int) :
    (es.map (fun e => { e with feedID := g1 e, userID := g2 e })).map (prepareEntry fid uid) =
      es.map (prepareEntry fid uid) := by
  rw [List.map_map]
  apply List.map_congr_left
  intro e _
  rfl

/-- C10: before each child entry is existence-checked and inserted during
`CreateFeed`, its feed identifier is overwritten with the identifier generated
for the inserted feed row and its user identifier with the feed's owning user:
every entry the call appends to the `entries` table carries exactly those two
identifiers, and the whole call is invariant under arbitrary changes to the
feed/user identifiers the caller had set on the payload entries. -/
theorem C10_create_overwrites_entry_ownership (o : CreateOracle) (db : Db) (feed : Feed)
    (payload : List EntryRow) (g1 g2 : EntryRow → Int) (hins : o.insertFeedFails = false) :
    (∃ new, (CreateFeed o db feed payload).2.entries = db.entries ++ new ∧
      ∀ x ∈ new, x.feedID = o.genID ∧ x.userID = feed.userID) ∧
    CreateFeed o db feed payload =
      CreateFeed o db feed (payload.map (fun e => { e with feedID := g1 e, userID := g2 e })) := by
  constructor
  · obtain ⟨new, hnew, hall⟩ :=
      entryTxLoop_appends_prepared o.genID feed.userID payload o.txs db.entries
    obtain ⟨_, hent, _⟩ := createFeed_entries_eq o db feed payload hins
    exact ⟨new, by rw [hent, hnew], hall⟩
  · have hloop := entryTxLoop_congr_prepared o.genID feed.userID payload
      (payload.map (fun e => { e with feedID := g1 e, userID := g2 e })) o.txs db.entries
      (prepSeq_override o.genID feed.userID payload g1 g2).symm
    unfold CreateFeed
    rw [hins]
    simp only [Bool.false_eq_true, if_false]
    rw [hloop]

/-- Witness for C10: replacing every caller-set feed/user identifier of the
payload by junk values 1000/2000 leaves the concrete `CreateFeed` call
unchanged. -/
theorem C10_witness :
    CreateFeed sampleCreateOracle sampleDb sampleFeedPayload sampleTxEntries =
      CreateFeed sampleCreateOracle sampleDb sampleFeedPayload
        (sampleTxEntries.map (fun e => { e with feedID := 1000, userID := 2000 })) :=
  (C10_create_overwrites_entry_ownership sampleCreateOracle sampleDb sampleFeedPayload
    sampleTxEntries (fun _ => 1000) (fun _ => 2000) rfl).2
